import Mathlib

/-!
Verification of the household shared-expense tracker (`src/app.py`).

This file gives a shallow embedding of the business-logic core of the
application: the income calculator (`_cached_compute_income_means`), the
expense splitter (`add_expense_and_create_debts` /
`batch_add_expenses_and_create_debts`), the settlement operations
(`mark_debts_as_paid`, `approve_payments`) and expense deletion
(`delete_expense_debts` / `batch_delete_expense_debts`).

Modelling conventions:
* Money and incomes are exact rationals (`ℚ`).  Python's built-in `round`
  (banker's rounding, i.e. round-half-to-even) at two decimals is modelled
  by `round2` below over exact rationals.
* The Google-Sheets worksheets are modelled as Lean lists of records
  (`Ledger`): `items` is the active debt collection, `archive` the archive
  collection.  Row order in the list corresponds to sheet row order, and the
  pandas snapshot loaded at the start of each operation is the list itself.
* `uuid.uuid4()` draws are modelled by generator functions supplied in the
  environment (`pidGen` for purchase ids, `ridGen` for row ids).
* Exceptions (`ValueError`) raised by the splitter are modelled by
  `Except SplitError`; the settlement operations raise nothing and are total.
* E-mail notifications are modelled as values of type `Notif` returned by the
  operation; the external senders never affect the ledger state.
-/

namespace HM

/-- Round-half-to-even on rationals: the integer nearest to `q`, ties going
to the even integer.  This is Python's built-in `round` semantics. -/
def roundHalfEven (q : ℚ) : ℤ :=
  if Int.fract q < 1 / 2 then ⌊q⌋
  else if 1 / 2 < Int.fract q then ⌊q⌋ + 1
  else if ⌊q⌋ % 2 = 0 then ⌊q⌋ else ⌊q⌋ + 1

/-- Two-decimal rounding, modelling Python's `round(x, 2)` over exact
rationals (banker's rounding on the cent value).  Caveat: the program
rounds IEEE doubles, and a cent value that is an exact half in ℚ is
almost never an exact half as a double, so at such ties the double can
round to either side; concrete inputs evaluated below therefore avoid
half-cent ties, where this model and the program provably agree. -/
def round2 (q : ℚ) : ℚ := (roundHalfEven (q * 100) : ℚ) / 100

/-- Python-dict lookup on an association list: the LAST binding of a key
wins, as when a `dict` is built left to right. -/
def dictGet (m : List (String × ℚ)) (u : String) : Option ℚ :=
  (m.reverse.find? (fun p => p.1 == u)).map (fun p => p.2)

/-- Python's `u in d` key-membership test. -/
def dictContains (m : List (String × ℚ)) (u : String) : Bool :=
  (dictGet m u).isSome

/-- Lookup with a default (the splitter only looks up known keys). -/
def dictGetD (m : List (String × ℚ)) (u : String) (d : ℚ) : ℚ :=
  (dictGet m u).getD d

/-- One record of the `paychecks` worksheet as seen after the pandas
normalisation in `_cached_compute_income_means`: `username` is `none` when
the field is absent from the record (a pandas `NaN`), and each pay field is
`none` when it is absent or not numerically parseable
(`pd.to_numeric(errors="coerce")`). -/
structure PaycheckRecord where
  username : Option String
  pay1 : Option ℚ
  pay2 : Option ℚ
  pay3 : Option ℚ
deriving Repr, DecidableEq

/-- The row-wise mean `df[["pay1","pay2","pay3"]].mean(axis=1)`: the
arithmetic mean of the present (parseable) pay values, `none` (NaN) when no
value is present. -/
def rowMean (r : PaycheckRecord) : Option ℚ :=
  let vals := [r.pay1, r.pay2, r.pay3].filterMap id
  if vals.isEmpty then none else some (vals.sum / vals.length)

/-- `_cached_compute_income_means` from `src/app.py`: returns the empty
mapping when there are no paycheck records, otherwise keeps the rows whose
`username` is present and whose row mean is a valid number
(`df.dropna(subset=["username", "average"])`) and zips usernames with
means.  The resulting association list is read with Python-`dict`
semantics (`dictGet`: last binding wins). -/
def compute_income_means (records : List PaycheckRecord) : List (String × ℚ) :=
  if records.isEmpty then []
  else records.filterMap (fun r =>
    match r.username, rowMean r with
    | some u, some m => some (u, m)
    | _, _ => none)

/-- A row of the `items` worksheet (schema `ITEMS_HEADERS`). -/
structure DebtItem where
  id : String
  purchase_id : String
  timestamp : String
  purchase_date : String
  uploader : String
  debtor : String
  description : String
  amount_total : ℚ
  amount_owed : ℚ
  share_type : String
  receipt_url : String
  paid : Bool
  paid_at : String
  paid_by : String
deriving Repr, DecidableEq

/-- A row of the `archive` worksheet (schema `ARCHIVE_HEADERS` =
`ITEMS_HEADERS` plus the three approval columns). -/
structure ArchiveItem where
  base : DebtItem
  approved : Bool
  approved_at : String
  approved_by : String
deriving Repr, DecidableEq

/-- The ledger store: the active `items` collection and the `archive`
collection, in sheet row order. -/
structure Ledger where
  items : List DebtItem
  archive : List ArchiveItem
deriving Repr, DecidableEq

/-- A notification event handed to the e-mail notifier. -/
structure Notif where
  kind : String
  actor : String
  recipients : List String
  description : String
  amount : ℚ
deriving Repr, DecidableEq

/-- Which `ValueError` the splitter raised. -/
inductive SplitError where
  /-- "No valid expenses to create." -/
  | noValidExpenses
  /-- "No paycheck data found. ..." -/
  | noIncomeData
  /-- "Unknown share_type: ..." -/
  | unknownShareType
  /-- "No participants found for this share type ..." -/
  | noParticipants
  /-- "Participants must have positive average paychecks." -/
  | nonPositiveDenom
  /-- "No debt rows were created. ..." -/
  | noDebtRows
deriving Repr, DecidableEq

/-- One entry of the `expenses` list passed to the batch splitter:
`description`, `amount`, optional `date`, optional uploaded receipt file
(modelled by its name). -/
structure Expense where
  description : String
  amount : ℚ
  date : Option String
  file : Option String
deriving Repr, DecidableEq

/-- Ambient context of a splitter call: the roster `st.secrets["users"]`,
the income-means snapshot, the clock (`datetime.now`), the uuid generators
and the Drive upload collaborator (file name and purchase id to optional
URL; `none` models a failed upload). -/
structure SplitEnv where
  roster : List String
  incomeMeans : List (String × ℚ)
  now_iso : String
  todayDate : String
  pidGen : ℕ → String
  ridGen : ℕ → ℕ → String
  uploadFn : String → String → Option String

/-- Python's `str.strip()`: drop whitespace from both ends.  (Defined over
the character list so that it evaluates by kernel reduction.) -/
def pyStrip (s : String) : String :=
  ⟨((s.data.dropWhile Char.isWhitespace).reverse.dropWhile
      Char.isWhitespace).reverse⟩

/-- The per-expense validation filter: `amount > 0 and desc` where `desc`
is the stripped description. -/
def validExpenses (expenses : List Expense) : List Expense :=
  expenses.filter (fun e => decide (0 < e.amount) && !(pyStrip e.description == ""))

/-- `participants = [u for u in all_usernames if u in income_means]`. -/
def participantsBase (env : SplitEnv) : List String :=
  env.roster.filter (fun u => dictContains env.incomeMeans u)

/-- The participant list after the share-type dispatch: `relative_others`
removes the uploader, `relative_all` keeps the base list. -/
def participantsFor (env : SplitEnv) (uploader share_type : String) : List String :=
  if share_type = "relative_others"
  then (participantsBase env).filter (fun u => !(u == uploader))
  else participantsBase env

/-- `denom = sum(income_means[u] for u in participants)`. -/
def denomFor (env : SplitEnv) (uploader share_type : String) : ℚ :=
  ((participantsFor env uploader share_type).map
    (fun u => dictGetD env.incomeMeans u 0)).sum

/-- One debt row as built in the inner loop of the batch splitter, for the
enumerated participant `p` (position, debtor) of the (valid) expense `exp`
at index `idx`; `receipt` is the (optional) URL returned by the receipt
upload for this expense. -/
def debtRowFor (env : SplitEnv) (uploader share_type : String) (idx : ℕ)
    (exp : Expense) (receipt : Option String) (p : ℕ × String) : DebtItem :=
  { id := env.ridGen idx p.1
    purchase_id := env.pidGen idx
    timestamp := env.now_iso
    purchase_date := exp.date.getD env.todayDate
    uploader := uploader
    debtor := p.2
    description := pyStrip exp.description
    amount_total := exp.amount
    amount_owed := round2 (exp.amount * dictGetD env.incomeMeans p.2 0 /
      denomFor env uploader share_type)
    share_type := share_type
    receipt_url := receipt.getD ""
    paid := false
    paid_at := ""
    paid_by := "" }

/-- The inner row-building loop for one valid expense (index `idx` in the
enumeration of the valid expenses): one row per participant other than the
uploader, sharing the fresh `purchase_id`, the batch timestamp, the
(defaulted) purchase date, the stripped description and the total amount;
the owed share is `round(total * income / denom, 2)`.  Only the first
valid expense carries the uploaded receipt. -/
def expenseRows (env : SplitEnv) (uploader share_type : String)
    (idx : ℕ) (exp : Expense) : List DebtItem :=
  ((participantsFor env uploader share_type).filter
      (fun d => !(d == uploader))).enum.map
    (debtRowFor env uploader share_type idx exp
      (match (if idx = 0 then exp.file else none) with
        | some f => env.uploadFn f (env.pidGen idx)
        | none => none))

/-- `all_rows`: the concatenation of the per-expense rows over the
enumeration of the valid expenses. -/
def allRows (env : SplitEnv) (uploader share_type : String)
    (expenses : List Expense) : List DebtItem :=
  ((validExpenses expenses).enum.map
    (fun p => expenseRows env uploader share_type p.1 p.2)).flatten

/-- `batch_add_expenses_and_create_debts` from `src/app.py`: on success
returns the generated debt rows (the single batched `append_rows` write)
and the returned count `len(valid_expenses)`; each `raise ValueError(...)`
becomes the corresponding `SplitError`.  The `self` share type returns
immediately with no rows and count `0`. -/
def batch_add_expenses_and_create_debts (env : SplitEnv) (uploader : String)
    (expenses : List Expense) (share_type : String) :
    Except SplitError (List DebtItem × ℕ) :=
  if share_type = "self" then .ok ([], 0)
  else if (validExpenses expenses).isEmpty then .error .noValidExpenses
  else if env.incomeMeans.isEmpty then .error .noIncomeData
  else if share_type = "relative_all" ∨ share_type = "relative_others" then
    if (participantsFor env uploader share_type).isEmpty then
      .error .noParticipants
    else if denomFor env uploader share_type ≤ 0 then
      .error .nonPositiveDenom
    else if (allRows env uploader share_type expenses).isEmpty then
      .error .noDebtRows
    else
      .ok (allRows env uploader share_type expenses, (validExpenses expenses).length)
  else .error .unknownShareType

/-- `add_expense_and_create_debts` from `src/app.py`: wraps the single
expense in a one-element list and delegates to the batch function. -/
def add_expense_and_create_debts (env : SplitEnv) (uploader description : String)
    (total_amount : ℚ) (share_type : String)
    (purchase_date : Option String := none) (uploaded_file : Option String := none) :
    Except SplitError (List DebtItem × ℕ) :=
  batch_add_expenses_and_create_debts env uploader
    [{ description := description, amount := total_amount,
       date := purchase_date, file := uploaded_file }] share_type

/-- The splitter call together with its ledger side effect: on success the
generated rows are appended to the active collection in one batch write; on
failure the ledger is untouched. -/
def runBatchAdd (led : Ledger) (env : SplitEnv) (uploader : String)
    (expenses : List Expense) (share_type : String) :
    Ledger × Except SplitError ℕ :=
  match batch_add_expenses_and_create_debts env uploader expenses share_type with
  | .ok (rows, n) => ({ led with items := led.items ++ rows }, .ok n)
  | .error e => (led, .error e)

/-- Update a list at one index through `f`, leaving it unchanged when the
index is out of range.  Models one batched cell update addressed by sheet
row number. -/
def updateAtIdx {α : Type} (l : List α) (i : ℕ) (f : α → α) : List α :=
  match l[i]? with
  | some a => l.set i (f a)
  | none => l

/-- Apply the collected batched updates, one index at a time. -/
def applyUpdatesAt {α : Type} (l : List α) (idxs : List ℕ) (f : α → α) : List α :=
  idxs.foldl (fun acc i => updateAtIdx acc i f) l

/-- The per-id scan of a settlement loop over the ids requested by the
caller, against the pandas snapshot loaded once at the start of the call:
an id with no matching row is skipped; otherwise the FIRST matching row
(`items_df.index[...][0]`) is taken and kept only when it passes the
permission check `okRow`.  Each qualifying occurrence yields the pair
(sheet row index, snapshot row). -/
def findTargets {α : Type} (idOf : α → String) (okRow : α → Bool)
    (snapshot : List α) (ids : List String) : List (ℕ × α) :=
  ids.filterMap (fun d =>
    (snapshot.findIdx? (fun r => idOf r == d)).bind (fun i =>
      (snapshot[i]?).bind (fun r =>
        if okRow r then some (i, r) else none)))

/-- The three cell updates of `mark_debts_as_paid` on an active row:
`paid := True`, `paid_at := now`, `paid_by := current_user`. -/
def setPaid (now user : String) (r : DebtItem) : DebtItem :=
  { r with paid := true, paid_at := now, paid_by := user }

/-- The archive row appended by `mark_debts_as_paid`: the snapshot row with
the paid fields stamped, plus `approved = False` and empty approval
columns. -/
def archiveOf (now user : String) (r : DebtItem) : ArchiveItem :=
  { base := setPaid now user r
    approved := false
    approved_at := ""
    approved_by := "" }

/-- `mark_debts_as_paid` from `src/app.py`: for each requested id (checked
against the snapshot loaded once), a missing id or a row whose debtor is
not the caller is silently skipped; each qualifying occurrence stamps the
paid fields on the active row, appends one archive copy with
`approved = False`, and queues one notification to the uploader.  Returns
the new ledger and the emitted notifications. -/
def mark_debts_as_paid (now user : String) (debt_ids : List String)
    (led : Ledger) : Ledger × List Notif :=
  if debt_ids.isEmpty then (led, [])
  else if led.items.isEmpty then (led, [])
  else
    let tgts := findTargets (fun r => r.id) (fun r => r.debtor == user)
      led.items debt_ids
    let items := applyUpdatesAt led.items (tgts.map (fun p => p.1)) (setPaid now user)
    let archive := led.archive ++ tgts.map (fun p => archiveOf now user p.2)
    ({ items := items, archive := archive },
     tgts.map (fun p =>
       { kind := "payment_marked"
         actor := user
         recipients := [p.2.uploader]
         description := p.2.description
         amount := p.2.amount_owed }))

/-- The three cell updates of `approve_payments` on an archive row:
`approved := True`, `approved_at := now`, `approved_by := current_user`. -/
def setApproved (now user : String) (a : ArchiveItem) : ArchiveItem :=
  { a with approved := true, approved_at := now, approved_by := user }

/-- `approve_payments` from `src/app.py`: for each requested id (checked
against the archive snapshot loaded once), a missing id or a row whose
uploader is not the caller is silently skipped; each qualifying occurrence
stamps the approval fields on the archive row and queues one notification
to the debtor. -/
def approve_payments (now user : String) (archive_ids : List String)
    (led : Ledger) : Ledger × List Notif :=
  if archive_ids.isEmpty then (led, [])
  else if led.archive.isEmpty then (led, [])
  else
    let tgts := findTargets (fun a => a.base.id) (fun a => a.base.uploader == user)
      led.archive archive_ids
    let archive := applyUpdatesAt led.archive (tgts.map (fun p => p.1))
      (setApproved now user)
    ({ led with archive := archive },
     tgts.map (fun p =>
       { kind := "payment_approved"
         actor := user
         recipients := [p.2.base.debtor]
         description := p.2.base.description
         amount := p.2.base.amount_owed }))

/-- `pandas.Series.unique`: first occurrences, in order. -/
def uniqueFirst (l : List String) : List String :=
  l.foldl (fun acc a => if a ∈ acc then acc else acc ++ [a]) []

/-- The deletion notification for one purchase group: description and total
amount from the group's first row, addressed to the distinct debtors of the
group. -/
def deleteNotifFor (user : String) (rows : List DebtItem) : Notif :=
  { kind := "expense_deleted"
    actor := user
    recipients := uniqueFirst (rows.map (fun r => r.debtor))
    description := (rows.head?.map (fun r => r.description)).getD ""
    amount := (rows.head?.map (fun r => r.amount_total)).getD 0 }

/-- `batch_delete_expense_debts` from `src/app.py`: among the active rows
whose `purchase_id` is in the requested set, only those uploaded by the
caller are deleted (a mismatched group is silently excluded, nothing is
raised); the archive collection is never touched.  One notification per
deleted purchase group (skipped when it has no affected debtors); the
returned count is the number of distinct deleted purchase ids. -/
def batch_delete_expense_debts (user : String) (purchase_ids : List String)
    (led : Ledger) : Ledger × List Notif × ℕ :=
  if purchase_ids.isEmpty then (led, [], 0)
  else if led.items.isEmpty then (led, [], 0)
  else
    let matching := led.items.filter (fun r => purchase_ids.contains r.purchase_id)
    if matching.isEmpty then (led, [], 0)
    else
      let mine := matching.filter (fun r => r.uploader == user)
      if mine.isEmpty then (led, [], 0)
      else
        let pidsU := uniqueFirst (mine.map (fun r => r.purchase_id))
        let notifs := (pidsU.map (fun pid =>
          deleteNotifFor user (mine.filter (fun r => r.purchase_id == pid)))).filter
          (fun nt => !nt.recipients.isEmpty)
        let items := led.items.filter
          (fun r => !(purchase_ids.contains r.purchase_id && r.uploader == user))
        ({ led with items := items }, notifs, pidsU.length)

/-- `delete_expense_debts` from `src/app.py`: delegates to the batch
deletion with the singleton purchase-id list. -/
def delete_expense_debts (user : String) (purchase_id : String)
    (led : Ledger) : Ledger × List Notif × ℕ :=
  batch_delete_expense_debts user [purchase_id] led

/-! ### Concrete sample data used to evaluate the model -/

/-- A sample splitter environment: two users, incomes 2 and 1. -/
def envA : SplitEnv :=
  { roster := ["u", "a"]
    incomeMeans := [("u", 2), ("a", 1)]
    now_iso := "T"
    todayDate := "D"
    pidGen := fun _ => "P"
    ridGen := fun _ _ => "R"
    uploadFn := fun _ _ => none }

/-- A sample environment where the uploader `u` has no income data. -/
def envB : SplitEnv :=
  { envA with roster := ["u", "a", "b"], incomeMeans := [("a", 1), ("b", 1)] }

/-- The spec's denominator scenario: incomes `U:5000, A:1000, B:1000`. -/
def envC : SplitEnv :=
  { envA with roster := ["U", "A", "B"]
              incomeMeans := [("U", 5000), ("A", 1000), ("B", 1000)] }

/-- A sample active debt row: `alice` owes `bob` 10 of a 30 purchase. -/
def rowD1 : DebtItem :=
  { id := "d1", purchase_id := "p1", timestamp := "T0", purchase_date := "D0"
    uploader := "bob", debtor := "alice", description := "food"
    amount_total := 30, amount_owed := 10, share_type := "relative_all"
    receipt_url := "", paid := false, paid_at := "", paid_by := "" }

/-- A second active debt row of the same purchase, owed by `carol`. -/
def rowD2 : DebtItem :=
  { rowD1 with id := "d2", debtor := "carol", amount_owed := 5 }

/-- An active debt row of a different purchase `p2`. -/
def rowD3 : DebtItem :=
  { rowD1 with id := "d3", purchase_id := "p2", debtor := "carol" }

/-- A pre-existing archive row, untouched by the operations under test. -/
def arcOld : ArchiveItem :=
  { base := { rowD1 with id := "d0", paid := true, paid_at := "T-1", paid_by := "alice" }
    approved := true, approved_at := "T-1", approved_by := "bob" }

/-- Sample ledger: two active rows of purchase `p1`, one of `p2`, one old
archive row. -/
def ledA : Ledger := { items := [rowD1, rowD2, rowD3], archive := [arcOld] }

/-- Extract the generated rows of a successful splitter call. -/
def rowsOf (r : Except SplitError (List DebtItem × ℕ)) : List DebtItem :=
  match r with
  | .ok (rows, _) => rows
  | .error _ => []

/-- A sample expense of amount 30. -/
def expW : Expense := { description := "food", amount := 30, date := none, file := none }

/-- The row the splitter generates for `expW` in `envA` under
`relative_all` (debtor `a`, share `30 * 1 / 3 = 10`). -/
def rowW : DebtItem :=
  { id := "R", purchase_id := "P", timestamp := "T", purchase_date := "D"
    uploader := "u", debtor := "a", description := "food"
    amount_total := 30, amount_owed := 10, share_type := "relative_all"
    receipt_url := "", paid := false, paid_at := "", paid_by := "" }

/-- A 0.035 expense: each half of it is 0.0175, which rounds up to 0.02
(0.75 of a cent above the whole cent — not a tie, so IEEE-double
arithmetic in the program rounds the same way:
`round(0.035 * 1.0 / 2.0, 2) = 0.02`). -/
def expB : Expense := { description := "gum", amount := 7 / 200, date := none, file := none }

/-- First row generated for `expB` in `envB` under `relative_others`. -/
def rowB1 : DebtItem :=
  { rowW with debtor := "a", description := "gum", amount_total := 7 / 200
              amount_owed := 1 / 50, share_type := "relative_others" }

/-- Second row generated for `expB` in `envB` under `relative_others`. -/
def rowB2 : DebtItem := { rowB1 with debtor := "b" }

/-- The spec's 700 expense for the denominator scenario. -/
def expC : Expense := { description := "trip", amount := 700, date := none, file := none }

/-- Archive copy created when `alice` marks `rowD1` paid at `"T1"`. -/
def arcP : ArchiveItem := archiveOf "T1" "alice" rowD1

/-- A ledger with a single unpaid active row and empty archive. -/
def ledP : Ledger := { items := [rowD1], archive := [] }

/-- A ledger whose archive holds one unapproved settled row. -/
def ledQ : Ledger := { items := [], archive := [arcP] }

end HM

deriving instance DecidableEq for Except

namespace HM

/-! ### Helper lemmas -/

theorem roundHalfEven_le (q : ℚ) : (roundHalfEven q : ℚ) ≤ q + 1 / 2 := by
  have hfl : (⌊q⌋ : ℚ) ≤ q := Int.floor_le q
  have hadd : (⌊q⌋ : ℚ) + Int.fract q = q := Int.floor_add_fract q
  unfold roundHalfEven
  split_ifs with h1 h2 h3
  · linarith
  · push_cast
    linarith
  · linarith
  · have h4 : Int.fract q ≤ 1 / 2 := not_lt.1 h2
    push_cast
    linarith

theorem round2_le (q : ℚ) : round2 q ≤ q + 1 / 200 := by
  have h := roundHalfEven_le (q * 100)
  unfold round2
  linarith

theorem batch_ok_rel {env : SplitEnv} {uploader st : String}
    {expenses : List Expense} {rows : List DebtItem} {n : ℕ}
    (hst : st = "relative_all" ∨ st = "relative_others")
    (hok : batch_add_expenses_and_create_debts env uploader expenses st =
      .ok (rows, n)) :
    rows = allRows env uploader st expenses ∧
    n = (validExpenses expenses).length ∧
    ¬(validExpenses expenses).isEmpty ∧
    0 < denomFor env uploader st ∧
    ¬(participantsFor env uploader st).isEmpty := by
  have hself : ¬st = "self" := by
    rcases hst with h | h <;> simp [h]
  unfold batch_add_expenses_and_create_debts at hok
  rw [if_neg hself] at hok
  split_ifs at hok with h1 h2 h3 h4 h5
  simp only [Except.ok.injEq, Prod.mk.injEq] at hok
  exact ⟨hok.1.symm, hok.2.symm, h1, lt_of_not_le h4, h3⟩

theorem expenseRows_debtors (env : SplitEnv) (uploader st : String)
    (idx : ℕ) (exp : Expense) :
    (expenseRows env uploader st idx exp).map (fun r => r.debtor) =
      (participantsFor env uploader st).filter (fun d => !(d == uploader)) := by
  unfold expenseRows
  rw [List.map_map]
  rw [show ((fun r : DebtItem => r.debtor) ∘
      debtRowFor env uploader st idx exp
        (match (if idx = 0 then exp.file else none) with
          | some f => env.uploadFn f (env.pidGen idx)
          | none => none)) = (Prod.snd : ℕ × String → String) from rfl]
  exact List.enum_map_snd _

theorem expenseRows_fields (env : SplitEnv) (uploader st : String)
    (idx : ℕ) (exp : Expense) :
    ∀ r ∈ expenseRows env uploader st idx exp,
      r.purchase_id = env.pidGen idx ∧
      r.timestamp = env.now_iso ∧
      r.purchase_date = exp.date.getD env.todayDate ∧
      r.uploader = uploader ∧
      r.description = pyStrip exp.description ∧
      r.amount_total = exp.amount ∧
      r.share_type = st ∧
      ¬r.debtor = uploader ∧
      r.amount_owed =
        round2 (exp.amount * dictGetD env.incomeMeans r.debtor 0 /
          denomFor env uploader st) := by
  intro r hr
  unfold expenseRows at hr
  simp only [List.mem_map] at hr
  obtain ⟨p, hp, rfl⟩ := hr
  have hdeb : ¬p.2 = uploader := by
    have hmem : p.2 ∈ ((participantsFor env uploader st).filter
        (fun d => !(d == uploader))).enum.map Prod.snd := by
      exact List.mem_map.2 ⟨p, hp, rfl⟩
    rw [List.enum_map_snd] at hmem
    have := List.of_mem_filter hmem
    simpa using this
  exact ⟨rfl, rfl, rfl, rfl, rfl, rfl, rfl, hdeb, rfl⟩

theorem dictGetD_nonneg {m : List (String × ℚ)}
    (hnn : ∀ p ∈ m, 0 ≤ p.2) (u : String) : 0 ≤ dictGetD m u 0 := by
  unfold dictGetD dictGet
  cases hfind : m.reverse.find? (fun p => p.1 == u) with
  | none => simp
  | some p =>
    have hp : p ∈ m.reverse := List.mem_of_find?_eq_some hfind
    have := hnn p (List.mem_reverse.1 hp)
    simpa using this

theorem expenseRows_owed_map (env : SplitEnv) (uploader st : String)
    (idx : ℕ) (exp : Expense) :
    (expenseRows env uploader st idx exp).map (fun r => r.amount_owed) =
      ((participantsFor env uploader st).filter (fun d => !(d == uploader))).map
        (fun d => round2 (exp.amount * dictGetD env.incomeMeans d 0 /
          denomFor env uploader st)) := by
  unfold expenseRows
  rw [List.map_map]
  rw [show ((fun r : DebtItem => r.amount_owed) ∘
      debtRowFor env uploader st idx exp
        (match (if idx = 0 then exp.file else none) with
          | some f => env.uploadFn f (env.pidGen idx)
          | none => none)) =
      ((fun d => round2 (exp.amount * dictGetD env.incomeMeans d 0 /
        denomFor env uploader st)) ∘ Prod.snd) from rfl]
  rw [← List.map_map, List.enum_map_snd]

theorem expenseRows_length (env : SplitEnv) (uploader st : String)
    (idx : ℕ) (exp : Expense) :
    (expenseRows env uploader st idx exp).length =
      ((participantsFor env uploader st).filter
        (fun d => !(d == uploader))).length := by
  unfold expenseRows
  simp

theorem sum_round2_le (l : List ℚ) :
    (l.map round2).sum ≤ l.sum + l.length * (1 / 200) := by
  induction l with
  | nil => simp
  | cons a l ih =>
    simp only [List.map_cons, List.sum_cons, List.length_cons]
    have h := round2_le a
    push_cast
    linarith

theorem updateAtIdx_getElem? {α : Type} (f : α → α) (l : List α) (i j : ℕ) :
    (updateAtIdx l i f)[j]? = if j = i then (l[j]?).map f else l[j]? := by
  cases h : l[i]? with
  | none =>
    have hstep : updateAtIdx l i f = l := by
      unfold updateAtIdx
      rw [h]
    rw [hstep]
    by_cases hji : j = i
    · subst hji
      rw [if_pos rfl, h]
      rfl
    · rw [if_neg hji]
  | some a =>
    have hstep : updateAtIdx l i f = l.set i (f a) := by
      unfold updateAtIdx
      rw [h]
    rw [hstep]
    by_cases hji : j = i
    · subst hji
      obtain ⟨hlt, -⟩ := List.getElem?_eq_some.1 h
      rw [List.getElem?_set_eq_of_lt (f a) hlt, if_pos rfl, h]
      rfl
    · rw [List.getElem?_set_ne (fun he => hji he.symm), if_neg hji]

theorem applyUpdatesAt_getElem? {α : Type} (f : α → α) {idxs : List ℕ}
    (hnd : idxs.Nodup) (l : List α) (j : ℕ) :
    (applyUpdatesAt l idxs f)[j]? =
      if j ∈ idxs then (l[j]?).map f else l[j]? := by
  induction idxs generalizing l with
  | nil => simp [applyUpdatesAt]
  | cons i rest ih =>
    have hcons := List.nodup_cons.1 hnd
    have hstep : applyUpdatesAt l (i :: rest) f =
        applyUpdatesAt (updateAtIdx l i f) rest f := rfl
    rw [hstep, ih hcons.2]
    by_cases hji : j = i
    · subst hji
      rw [if_neg hcons.1, if_pos (List.mem_cons_self j rest),
        updateAtIdx_getElem?, if_pos rfl]
    · rw [updateAtIdx_getElem?, if_neg hji]
      by_cases hjr : j ∈ rest
      · rw [if_pos hjr, if_pos (List.mem_cons_of_mem i hjr)]
      · rw [if_neg hjr, if_neg (by simp [hji, hjr])]

theorem applyUpdatesAt_length {α : Type} (f : α → α) (idxs : List ℕ)
    (l : List α) : (applyUpdatesAt l idxs f).length = l.length := by
  induction idxs generalizing l with
  | nil => rfl
  | cons i rest ih =>
    have hstep : applyUpdatesAt l (i :: rest) f =
        applyUpdatesAt (updateAtIdx l i f) rest f := rfl
    rw [hstep, ih]
    unfold updateAtIdx
    cases h : l[i]? <;> simp

theorem findTargets_fun_id {α : Type} (idOf : α → String) (okRow : α → Bool)
    (snapshot : List α) (d : String) {i : ℕ} {r : α}
    (h : ((snapshot.findIdx? (fun x => idOf x == d)).bind (fun i =>
      (snapshot[i]?).bind (fun r =>
        if okRow r then some (i, r) else none))) = some (i, r)) :
    snapshot[i]? = some r ∧ idOf r = d ∧ okRow r = true := by
  cases hfind : snapshot.findIdx? (fun x => idOf x == d) with
  | none => rw [hfind] at h; simp at h
  | some k =>
    rw [hfind] at h
    simp only [Option.some_bind] at h
    cases hget : snapshot[k]? with
    | none => rw [hget] at h; simp at h
    | some a =>
      rw [hget] at h
      simp only [Option.some_bind] at h
      by_cases hok2 : okRow a = true
      · rw [if_pos hok2] at h
        simp only [Option.some.injEq, Prod.mk.injEq] at h
        obtain ⟨rfl, rfl⟩ := h
        refine ⟨hget, ?_, hok2⟩
        obtain ⟨hlen, hfi⟩ := List.findIdx?_eq_some_iff_findIdx_eq.1 hfind
        obtain ⟨hlt2, hgeteq⟩ := List.getElem?_eq_some.1 hget
        have hw : snapshot.findIdx (fun x => idOf x == d) < snapshot.length := by
          rw [hfi]
          exact hlt2
        have hpj := @List.findIdx_getElem _ (fun x => idOf x == d) snapshot hw
        have hgq : snapshot[snapshot.findIdx (fun x => idOf x == d)]? =
            some a := by
          rw [hfi]
          exact hget
        obtain ⟨hb, hbe⟩ := List.getElem?_eq_some.1 hgq
        rw [hbe] at hpj
        exact beq_iff_eq.1 hpj
      · rw [if_neg hok2] at h
        simp at h

theorem findTargets_sound {α : Type} (idOf : α → String) (okRow : α → Bool)
    (snapshot : List α) (ids : List String) {i : ℕ} {r : α}
    (h : (i, r) ∈ findTargets idOf okRow snapshot ids) :
    snapshot[i]? = some r ∧ idOf r ∈ ids ∧ okRow r = true := by
  obtain ⟨d, hd, hf⟩ := List.mem_filterMap.1 h
  obtain ⟨h1, h2, h3⟩ := findTargets_fun_id idOf okRow snapshot d hf
  exact ⟨h1, h2 ▸ hd, h3⟩

theorem findTargets_complete {α : Type} (idOf : α → String) (okRow : α → Bool)
    {snapshot : List α} (ids : List String)
    (hsnod : (snapshot.map idOf).Nodup) {i : ℕ} {r : α}
    (hget : snapshot[i]? = some r) (hid : idOf r ∈ ids)
    (hok2 : okRow r = true) :
    (i, r) ∈ findTargets idOf okRow snapshot ids := by
  refine List.mem_filterMap.2 ⟨idOf r, hid, ?_⟩
  obtain ⟨hlt, hgeteq⟩ := List.getElem?_eq_some.1 hget
  have hpi : (idOf snapshot[i] == idOf r) = true := by
    rw [hgeteq]
    simp
  have hfind : snapshot.findIdx? (fun x => idOf x == idOf r) = some i := by
    refine List.findIdx?_eq_some_iff_findIdx_eq.2 ⟨hlt, ?_⟩
    have hex : ∃ x ∈ snapshot, (fun x => idOf x == idOf r) x = true :=
      ⟨snapshot[i], List.getElem_mem hlt, hpi⟩
    have hflt : snapshot.findIdx (fun x => idOf x == idOf r) <
        snapshot.length := List.findIdx_lt_length_of_exists hex
    rcases Nat.lt_trichotomy
      (snapshot.findIdx (fun x => idOf x == idOf r)) i with hlt2 | heq | hgt
    · exfalso
      have hpj := @List.findIdx_getElem _ (fun x => idOf x == idOf r)
        snapshot hflt
      have e1 : idOf snapshot[snapshot.findIdx
          (fun x => idOf x == idOf r)] = idOf r := beq_iff_eq.1 hpj
      have e2 : idOf snapshot[i] = idOf r := by rw [hgeteq]
      have hb1 : snapshot.findIdx (fun x => idOf x == idOf r) <
          (snapshot.map idOf).length := by simpa using hflt
      have hb2 : i < (snapshot.map idOf).length := by simpa using hlt
      have hmap : (snapshot.map idOf)[snapshot.findIdx
          (fun x => idOf x == idOf r)] = (snapshot.map idOf)[i] := by
        rw [List.getElem_map, List.getElem_map, e1, e2]
      have : snapshot.findIdx (fun x => idOf x == idOf r) = i :=
        (List.Nodup.getElem_inj_iff hsnod).1 hmap
      omega
    · exact heq
    · exfalso
      have hfalse := List.not_of_lt_findIdx hgt
      rw [hpi] at hfalse
      cases hfalse
  rw [hfind]
  simp only [Option.some_bind]
  rw [hget]
  simp only [Option.some_bind]
  rw [if_pos hok2]

theorem findTargets_eq_of_id {α : Type} (idOf : α → String) (okRow : α → Bool)
    (snapshot : List α) (ids : List String) {i i' : ℕ} {r r' : α}
    (h1 : (i, r) ∈ findTargets idOf okRow snapshot ids)
    (h2 : (i', r') ∈ findTargets idOf okRow snapshot ids)
    (heq : idOf r = idOf r') : (i, r) = (i', r') := by
  obtain ⟨d, hd, hf⟩ := List.mem_filterMap.1 h1
  obtain ⟨d', hd', hf'⟩ := List.mem_filterMap.1 h2
  have e1 := (findTargets_fun_id idOf okRow snapshot d hf).2.1
  have e2 := (findTargets_fun_id idOf okRow snapshot d' hf').2.1
  have hdd : d = d' := by rw [← e1, ← e2, heq]
  subst hdd
  rw [hf] at hf'
  obtain ⟨h1, h2⟩ : i = i' ∧ r = r' := by simpa using hf'
  rw [h1, h2]

theorem findTargets_nodup {α : Type} (idOf : α → String) (okRow : α → Bool)
    (snapshot : List α) {ids : List String} (hnd : ids.Nodup) :
    (findTargets idOf okRow snapshot ids).Nodup := by
  refine List.Nodup.filterMap ?_ hnd
  intro d d' b hb hb'
  cases b with
  | mk i r =>
    have e1 := (findTargets_fun_id idOf okRow snapshot d hb).2.1
    have e2 := (findTargets_fun_id idOf okRow snapshot d' hb').2.1
    rw [← e1, ← e2]

theorem findTargets_fst_nodup {α : Type} (idOf : α → String) (okRow : α → Bool)
    (snapshot : List α) {ids : List String} (hnd : ids.Nodup) :
    ((findTargets idOf okRow snapshot ids).map (fun p => p.1)).Nodup := by
  have htg := findTargets_nodup idOf okRow snapshot hnd
  refine List.Nodup.map_on ?_ htg
  intro x hx y hy hxy
  obtain ⟨hgx, -, -⟩ := findTargets_sound idOf okRow snapshot ids
    (by rw [show x = (x.1, x.2) from rfl] at hx; exact hx)
  obtain ⟨hgy, -, -⟩ := findTargets_sound idOf okRow snapshot ids
    (by rw [show y = (y.1, y.2) from rfl] at hy; exact hy)
  rw [hxy] at hgx
  rw [hgx] at hgy
  have : x.2 = y.2 := by injection hgy
  exact Prod.ext hxy this

/-! ### The claims -/

/-- C1: for a `relative_all` or `relative_others` expense batch that
succeeds, the emitted rows are exactly the per-expense row groups; within
the group of one (valid) expense there is exactly one row per participant
other than the uploader — in particular never a row with
`debtor = uploader` — every row carries the single freshly generated
purchase id of that expense and the shared timestamp, purchase date,
description and total amount, and the owed share is
`round(totalAmount * income(debtor) / denom, 2)` with `denom` the sum of
the participants' incomes (`denomFor`). -/
theorem claim1_splitter_row_shape (env : SplitEnv) (uploader st : String)
    (expenses : List Expense) (rows : List DebtItem) (n : ℕ)
    (hst : st = "relative_all" ∨ st = "relative_others")
    (hok : batch_add_expenses_and_create_debts env uploader expenses st =
      .ok (rows, n)) :
    rows = allRows env uploader st expenses ∧
    ∀ idx exp, (idx, exp) ∈ (validExpenses expenses).enum →
      (expenseRows env uploader st idx exp).map (fun r => r.debtor) =
        (participantsFor env uploader st).filter (fun d => !(d == uploader)) ∧
      ∀ r ∈ expenseRows env uploader st idx exp,
        r.purchase_id = env.pidGen idx ∧
        r.timestamp = env.now_iso ∧
        r.purchase_date = exp.date.getD env.todayDate ∧
        r.description = pyStrip exp.description ∧
        r.amount_total = exp.amount ∧
        ¬r.debtor = uploader ∧
        r.amount_owed =
          round2 (exp.amount * dictGetD env.incomeMeans r.debtor 0 /
            denomFor env uploader st) := by
  refine ⟨(batch_ok_rel hst hok).1, ?_⟩
  intro idx exp _
  refine ⟨expenseRows_debtors env uploader st idx exp, ?_⟩
  intro r hr
  obtain ⟨h1, h2, h3, _, h5, h6, _, h8, h9⟩ :=
    expenseRows_fields env uploader st idx exp r hr
  exact ⟨h1, h2, h3, h5, h6, h8, h9⟩

unseal Rat.mul Rat.inv Rat.add Rat.sub in
theorem claim1_witness :
    [rowW] = allRows envA "u" "relative_all" [expW] :=
  (claim1_splitter_row_shape envA "u" "relative_all" [expW] [rowW] 1
    (Or.inl rfl) (by decide)).1

unseal Rat.mul Rat.inv Rat.add Rat.sub in
/-- C2, counterexample: a valid 0.035 expense under `relative_others` with
two equal-income debtors produces shares 0.02 + 0.02 = 0.04 > 0.035 (each
0.0175 share is 0.75 of a cent above the whole cent and rounds up, in the
program's float arithmetic just as in this exact model), so the sum of the
emitted shares exceeds `totalAmount` and the uploader's implicit remainder
is negative. -/
theorem claim2_counterexample :
    batch_add_expenses_and_create_debts envB "u" [expB] "relative_others" =
      .ok ([rowB1, rowB2], 1) ∧
    ((rowsOf (batch_add_expenses_and_create_debts envB "u" [expB]
      "relative_others")).map (fun r => r.amount_owed)).sum = 1 / 25 ∧
    expB.amount < 1 / 25 := by
  decide

/-- C2, amended: for a single expense with positive amount, nonnegative
income means and a recognised share type, the sum of the emitted shares is
at most `totalAmount` plus half a cent (1/200) per emitted row — the
two-decimal rounding of each share can push the total over `totalAmount`
by at most that much, so the uploader's implicit remainder is bounded
below by `-(number of rows)/200` rather than by 0. -/
theorem claim2_shares_sum_bound (env : SplitEnv) (uploader desc st : String)
    (amount : ℚ) (dt fl : Option String) (rows : List DebtItem) (n : ℕ)
    (hpos : 0 < amount)
    (hnn : ∀ p ∈ env.incomeMeans, 0 ≤ p.2)
    (hst : st = "self" ∨ st = "relative_all" ∨ st = "relative_others")
    (hok : batch_add_expenses_and_create_debts env uploader
      [{ description := desc, amount := amount, date := dt, file := fl }] st =
      .ok (rows, n)) :
    (rows.map (fun r => r.amount_owed)).sum ≤
      amount + rows.length * (1 / 200) := by
  rcases hst with hself | hst
  · subst hself
    unfold batch_add_expenses_and_create_debts at hok
    rw [if_pos rfl] at hok
    cases hok
    simpa using le_of_lt hpos
  · obtain ⟨hrows, -, hvalid, hdenom, -⟩ := batch_ok_rel hst hok
    subst hrows
    have hv : validExpenses
        [{ description := desc, amount := amount, date := dt, file := fl }] =
        [{ description := desc, amount := amount, date := dt, file := fl }] := by
      unfold validExpenses at hvalid ⊢
      rw [List.filter_cons] at hvalid ⊢
      dsimp only at hvalid ⊢
      by_cases hcond : (decide (0 < amount) && !(pyStrip desc == "")) = true
      · rw [if_pos hcond]
        simp
      · rw [if_neg hcond] at hvalid
        simp at hvalid
    have har : allRows env uploader st
        [{ description := desc, amount := amount, date := dt, file := fl }] =
        expenseRows env uploader st 0
          { description := desc, amount := amount, date := dt, file := fl } := by
      unfold allRows
      rw [hv]
      simp [List.enum]
    rw [har, expenseRows_owed_map, expenseRows_length]
    dsimp only
    set ps := (participantsFor env uploader st).filter
      (fun d => !(d == uploader)) with hps
    have hround := sum_round2_le (ps.map (fun d =>
      amount * dictGetD env.incomeMeans d 0 / denomFor env uploader st))
    rw [List.map_map, List.length_map] at hround
    have hcomp : ps.map (round2 ∘ (fun d =>
        amount * dictGetD env.incomeMeans d 0 / denomFor env uploader st)) =
        ps.map (fun d => round2 (amount * dictGetD env.incomeMeans d 0 /
          denomFor env uploader st)) := rfl
    rw [hcomp] at hround
    refine le_trans hround ?_
    have hsub : (ps.map (fun u => dictGetD env.incomeMeans u 0)).Sublist
        ((participantsFor env uploader st).map
          (fun u => dictGetD env.incomeMeans u 0)) :=
      (List.filter_sublist _).map _
    have hsum_le : (ps.map (fun u => dictGetD env.incomeMeans u 0)).sum ≤
        denomFor env uploader st := by
      unfold denomFor
      refine List.Sublist.sum_le_sum hsub ?_
      intro x hx
      obtain ⟨u, -, rfl⟩ := List.mem_map.1 hx
      exact dictGetD_nonneg hnn u
    have hxrw : ps.map (fun d => amount * dictGetD env.incomeMeans d 0 /
        denomFor env uploader st) =
        ps.map (fun d => (amount / denomFor env uploader st) *
          dictGetD env.incomeMeans d 0) := by
      refine List.map_congr_left ?_
      intro d _
      ring
    have hshares_le : (ps.map (fun d => amount * dictGetD env.incomeMeans d 0 /
        denomFor env uploader st)).sum ≤ amount := by
      rw [hxrw, List.sum_map_mul_left]
      have h1 : (amount / denomFor env uploader st) *
          (ps.map (fun u => dictGetD env.incomeMeans u 0)).sum ≤
          (amount / denomFor env uploader st) * denomFor env uploader st := by
        refine mul_le_mul_of_nonneg_left hsum_le ?_
        positivity
      calc (amount / denomFor env uploader st) *
            (List.map (fun u => dictGetD env.incomeMeans u 0) ps).sum ≤
            (amount / denomFor env uploader st) * denomFor env uploader st := h1
        _ = amount := div_mul_cancel₀ amount (ne_of_gt hdenom)
    linarith

unseal Rat.mul Rat.inv Rat.add Rat.sub in
theorem claim2_witness :
    (([rowW] : List DebtItem).map (fun r => r.amount_owed)).sum ≤
      30 + ([rowW] : List DebtItem).length * (1 / 200) :=
  claim2_shares_sum_bound envA "u" "food" "relative_all" 30 none none
    [rowW] 1 (by norm_num) (by decide) (Or.inr (Or.inl rfl)) (by decide)

unseal Rat.mul Rat.inv Rat.add Rat.sub in
/-- C5, counterexample: with `share_type = "self"` the splitter returns
immediately, so an expense with negative amount succeeds (no validation
error) instead of always failing; nothing is written either way. -/
theorem claim5_counterexample :
    batch_add_expenses_and_create_debts envA "u"
      [{ description := "beer", amount := -1, date := none, file := none }]
      "self" = .ok ([], 0) ∧
    (runBatchAdd ledA envA "u"
      [{ description := "beer", amount := -1, date := none, file := none }]
      "self").1 = ledA := by
  decide

/-- C5, amended: for every share type other than `self`, a single expense
with non-positive amount always fails with the validation error
`noValidExpenses` ("No valid expenses to create."), and the ledger store is
left unchanged. -/
theorem claim5_nonpositive_amount_fails (env : SplitEnv) (led : Ledger)
    (uploader desc st : String) (amount : ℚ) (dt fl : Option String)
    (hst : ¬st = "self") (hamt : amount ≤ 0) :
    batch_add_expenses_and_create_debts env uploader
      [{ description := desc, amount := amount, date := dt, file := fl }] st =
      .error .noValidExpenses ∧
    (runBatchAdd led env uploader
      [{ description := desc, amount := amount, date := dt, file := fl }] st).1 =
      led ∧
    (runBatchAdd led env uploader
      [{ description := desc, amount := amount, date := dt, file := fl }] st).2 =
      .error .noValidExpenses := by
  have hv : validExpenses
      [{ description := desc, amount := amount, date := dt, file := fl }] = [] := by
    simp [validExpenses, List.filter_cons, not_lt.mpr hamt]
  have h1 : batch_add_expenses_and_create_debts env uploader
      [{ description := desc, amount := amount, date := dt, file := fl }] st =
      .error .noValidExpenses := by
    unfold batch_add_expenses_and_create_debts
    rw [if_neg hst, hv]
    simp
  exact ⟨h1, by simp [runBatchAdd, h1], by simp [runBatchAdd, h1]⟩

unseal Rat.mul Rat.inv Rat.add Rat.sub in
theorem claim5_witness :
    batch_add_expenses_and_create_debts envA "u"
      [{ description := "beer", amount := -1, date := none, file := none }]
      "relative_all" = .error .noValidExpenses ∧
    (runBatchAdd ledA envA "u"
      [{ description := "beer", amount := -1, date := none, file := none }]
      "relative_all").1 = ledA ∧
    (runBatchAdd ledA envA "u"
      [{ description := "beer", amount := -1, date := none, file := none }]
      "relative_all").2 = .error .noValidExpenses :=
  claim5_nonpositive_amount_fails envA ledA "u" "beer" "relative_all" (-1)
    none none (by decide) (by norm_num)

unseal Rat.mul Rat.inv Rat.add Rat.sub in
/-- C6: with incomes `U:5000, A:1000, B:1000` and uploader `U`, the
denominator is 7000 under `relative_all` (the uploader's income counts)
but 2000 under `relative_others`, and e.g. a 700 expense yields different
shares for `A` and `B` under the two policies (100 vs 350 each). -/
theorem claim6_denominators_differ :
    denomFor envC "U" "relative_all" = 7000 ∧
    denomFor envC "U" "relative_others" = 2000 ∧
    (rowsOf (batch_add_expenses_and_create_debts envC "U" [expC]
      "relative_all")).map (fun r => (r.debtor, r.amount_owed)) =
      [("A", 100), ("B", 100)] ∧
    (rowsOf (batch_add_expenses_and_create_debts envC "U" [expC]
      "relative_others")).map (fun r => (r.debtor, r.amount_owed)) =
      [("A", 350), ("B", 350)] ∧
    ¬(rowsOf (batch_add_expenses_and_create_debts envC "U" [expC]
        "relative_all")).map (fun r => r.amount_owed) =
      (rowsOf (batch_add_expenses_and_create_debts envC "U" [expC]
        "relative_others")).map (fun r => r.amount_owed) := by
  decide

/-- C10: the single-expense operation is definitionally the batch
operation applied to the singleton list of that expense — same rows, same
errors, same returned count, for every input. -/
theorem claim10_single_equals_batch (env : SplitEnv)
    (uploader description : String) (total_amount : ℚ) (share_type : String)
    (purchase_date uploaded_file : Option String) :
    add_expense_and_create_debts env uploader description total_amount
      share_type purchase_date uploaded_file =
    batch_add_expenses_and_create_debts env uploader
      [{ description := description, amount := total_amount,
         date := purchase_date, file := uploaded_file }] share_type := rfl

/-- C7, counterexample: the single-id delete path delegates to the batch
path, so when the acting user (`alice`) is not the uploader (`bob`) of the
purchase group it silently deletes nothing and returns 0 — it completes
normally instead of failing with a PermissionError. -/
theorem claim7_counterexample :
    delete_expense_debts "alice" "p1" ledA = (ledA, [], 0) := by
  decide

/-- C7, amended: the single-id deleteExpense, exactly like the batch path,
silently excludes groups whose uploader is not the acting user: when no
active row of the given purchase id was uploaded by the acting user, the
call returns with the ledger unchanged, no notifications and count 0; no
PermissionError is raised on either path (the operation is total). -/
theorem claim7_single_delete_silent (led : Ledger) (user pid : String)
    (h : ∀ r ∈ led.items, r.purchase_id = pid → ¬r.uploader = user) :
    delete_expense_debts user pid led = (led, [], 0) := by
  have hmine : (led.items.filter
      (fun r => [pid].contains r.purchase_id)).filter
      (fun r => r.uploader == user) = [] := by
    refine List.filter_eq_nil_iff.2 ?_
    intro r hr
    have hr1 := List.mem_filter.1 hr
    have hpid : r.purchase_id = pid := by
      have h2 := hr1.2
      simp [List.contains] at h2
      exact h2
    have := h r hr1.1 hpid
    simp [this]
  unfold delete_expense_debts batch_delete_expense_debts
  dsimp only
  split_ifs with h1 h2 h3 h4 <;> try rfl
  exact absurd (by rw [hmine]; rfl) h4

unseal Rat.mul Rat.inv Rat.add Rat.sub in
theorem claim7_witness :
    delete_expense_debts "carol" "p1" ledA = (ledA, [], 0) :=
  claim7_single_delete_silent ledA "carol" "p1" (by decide)

/-- C8: when every active row of the given purchase id was uploaded by the
acting user, deleteExpense removes exactly the active rows with that
purchase id — every row with a different purchase id survives, in order —
and the archive collection is left entirely unchanged. -/
theorem claim8_delete_exact_frame (led : Ledger) (user pid : String)
    (h : ∀ r ∈ led.items, r.purchase_id = pid → r.uploader = user) :
    (delete_expense_debts user pid led).1.items =
      led.items.filter (fun r => !(r.purchase_id == pid)) ∧
    (delete_expense_debts user pid led).1.archive = led.archive := by
  have hfilters : led.items.filter
      (fun r => !([pid].contains r.purchase_id && r.uploader == user)) =
      led.items.filter (fun r => !(r.purchase_id == pid)) := by
    refine List.filter_congr ?_
    intro r hr
    by_cases hpid : r.purchase_id = pid
    · have hup : r.uploader = user := h r hr hpid
      have e1 : (r.purchase_id == pid) = true := beq_iff_eq.2 hpid
      have e2 : (r.uploader == user) = true := beq_iff_eq.2 hup
      simp only [List.contains, e1, e2]
      simp [hpid]
    · have e1 : (r.purchase_id == pid) = false := beq_eq_false_iff_ne.2 hpid
      simp only [List.contains, e1]
      simp [hpid]
  have hmatching : ∀ hm : (led.items.filter
      (fun r => [pid].contains r.purchase_id)).isEmpty = true,
      led.items.filter (fun r => !(r.purchase_id == pid)) = led.items := by
    intro hm
    refine List.filter_eq_self.2 ?_
    intro r hr
    have hnil := List.isEmpty_iff.1 hm
    by_cases hpid : r.purchase_id = pid
    · exfalso
      have : r ∈ led.items.filter (fun r => [pid].contains r.purchase_id) := by
        refine List.mem_filter.2 ⟨hr, ?_⟩
        simp [List.contains, hpid]
      rw [hnil] at this
      exact absurd this (List.not_mem_nil r)
    · simp [hpid]
  unfold delete_expense_debts batch_delete_expense_debts
  dsimp only
  split_ifs with h1 h2 h3 h4
  · simp at h1
  · constructor
    · rw [List.isEmpty_iff.1 h2]
      rfl
    · rfl
  · exact ⟨(hmatching h3).symm, rfl⟩
  · -- mine empty: then matching must be empty as well, since every
    -- matching row passes the uploader test under `h`
    have hm : (led.items.filter
        (fun r => [pid].contains r.purchase_id)).isEmpty = true := by
      by_contra hne
      have hxs := List.isEmpty_iff.1 h4
      have hmatchne : led.items.filter
          (fun r => [pid].contains r.purchase_id) ≠ [] := by
        intro hc
        rw [hc] at hne
        exact hne rfl
      obtain ⟨r, hrmem⟩ := List.exists_mem_of_ne_nil _ hmatchne
      have hr1 := List.mem_filter.1 hrmem
      have hpid : r.purchase_id = pid := by
        have h2' := hr1.2
        simp [List.contains] at h2'
        exact h2'
      have hup : r.uploader = user := h r hr1.1 hpid
      have : r ∈ (led.items.filter
          (fun r => [pid].contains r.purchase_id)).filter
          (fun r => r.uploader == user) :=
        List.mem_filter.2 ⟨hrmem, by simp [hup]⟩
      rw [hxs] at this
      exact absurd this (List.not_mem_nil r)
    exact ⟨(hmatching hm).symm, rfl⟩
  · exact ⟨hfilters, rfl⟩

unseal Rat.mul Rat.inv Rat.add Rat.sub in
theorem claim8_witness :
    (delete_expense_debts "bob" "p1" ledA).1.items =
      ledA.items.filter (fun r => !(r.purchase_id == "p1")) ∧
    (delete_expense_debts "bob" "p1" ledA).1.archive = ledA.archive :=
  claim8_delete_exact_frame ledA "bob" "p1" (by decide)

unseal Rat.mul Rat.inv Rat.add Rat.sub in
/-- C9, counterexample: a paycheck record whose `username` field holds the
empty string is NOT dropped by `dropna` (only a missing/NaN username is),
so the empty username appears in the returned mapping, contradicting the
claim that a user is included only if the username is non-empty. -/
theorem claim9_counterexample :
    (("", (5 : ℚ))) ∈ compute_income_means
      [{ username := some "", pay1 := some 5, pay2 := none, pay3 := none }] := by
  decide

/-- C9, amended: an entry `(u, m)` appears in the computed mapping exactly
when some paycheck record has the (present, possibly empty) username `u`
and at least one numerically parseable pay field, and `m` is the
arithmetic mean of the parseable pay fields of that record (non-numeric
fields are excluded from the mean, not treated as zero); the mapping is
empty when no paycheck records exist. -/
theorem claim9_income_means_spec :
    compute_income_means [] = [] ∧
    ∀ (records : List PaycheckRecord) (u : String) (m : ℚ),
      (u, m) ∈ compute_income_means records ↔
        ∃ r ∈ records, r.username = some u ∧
          ¬[r.pay1, r.pay2, r.pay3].filterMap id = [] ∧
          m = ([r.pay1, r.pay2, r.pay3].filterMap id).sum /
            ([r.pay1, r.pay2, r.pay3].filterMap id).length := by
  refine ⟨rfl, ?_⟩
  intro records u m
  unfold compute_income_means
  by_cases hrec : records.isEmpty
  · rw [if_pos hrec, List.isEmpty_iff.1 hrec]
    simp
  · rw [if_neg hrec, List.mem_filterMap]
    constructor
    · rintro ⟨r, hr, hmatch⟩
      cases hu : r.username with
      | none => rw [hu] at hmatch; simp at hmatch
      | some u' =>
        cases hm : rowMean r with
        | none => rw [hu, hm] at hmatch; simp at hmatch
        | some m' =>
          rw [hu, hm] at hmatch
          simp only [Option.some.injEq, Prod.mk.injEq] at hmatch
          obtain ⟨rfl, rfl⟩ := hmatch
          refine ⟨r, hr, hu, ?_, ?_⟩
          · intro hvals
            unfold rowMean at hm
            rw [hvals] at hm
            simp at hm
          · unfold rowMean at hm
            by_cases hvals : ([r.pay1, r.pay2, r.pay3].filterMap id).isEmpty
            · rw [if_pos hvals] at hm
              exact absurd hm (by simp)
            · rw [if_neg hvals] at hm
              simp only [Option.some.injEq] at hm
              exact hm.symm
    · rintro ⟨r, hr, hu, hvne, rfl⟩
      refine ⟨r, hr, ?_⟩
      rw [hu]
      unfold rowMean
      rw [if_neg (by simpa using hvne)]

/-- C3, counterexample: the permission/existence checks of markPaid run
against the snapshot loaded once at the start of the call, so a debt id
repeated in `debtIds` is processed once per occurrence: one call with
`["d1", "d1"]` by the true debtor appends TWO archive copies of the single
valid record, contradicting "exactly one new archive record is appended"
for that id. -/
theorem claim3_counterexample :
    ((mark_debts_as_paid "T1" "alice" ["d1", "d1"] ledA).1.archive.drop
      ledA.archive.length).count (archiveOf "T1" "alice" rowD1) = 2 := by
  decide

/-- C3, amended: for a `debtIds` list without duplicates (and active row
ids unique, per the data model), markPaid silently skips an id that does
not exist or whose record's debtor differs from the acting user (no error,
no change for that row); for each valid id it stamps
`paid/paid_at/paid_by` on the active record and appends exactly one new
archive record — the copy of the record with `approved = false` — while
every pre-existing archive record is preserved unchanged in place, and
every appended archive record stems from a valid requested id.  (With a
duplicated id, the snapshot-based checks process each occurrence, see the
counterexample.) -/
theorem claim3_mark_paid_spec (led : Ledger) (now user : String)
    (ids : List String) (hnd : ids.Nodup)
    (hids : (led.items.map (fun r => r.id)).Nodup) :
    (mark_debts_as_paid now user ids led).1.archive.take led.archive.length =
      led.archive ∧
    (mark_debts_as_paid now user ids led).1.items.length = led.items.length ∧
    (∀ (j : ℕ) (r : DebtItem), led.items[j]? = some r →
      (r.id ∈ ids ∧ r.debtor = user →
        (mark_debts_as_paid now user ids led).1.items[j]? =
          some (setPaid now user r) ∧
        ((mark_debts_as_paid now user ids led).1.archive.drop
          led.archive.length).count (archiveOf now user r) = 1) ∧
      (¬(r.id ∈ ids ∧ r.debtor = user) →
        (mark_debts_as_paid now user ids led).1.items[j]? = some r)) ∧
    (∀ a ∈ (mark_debts_as_paid now user ids led).1.archive.drop
        led.archive.length,
      ∃ r ∈ led.items, r.id ∈ ids ∧ r.debtor = user ∧
        a = archiveOf now user r) := by
  by_cases hids0 : ids.isEmpty
  · have hres : mark_debts_as_paid now user ids led = (led, []) := by
      unfold mark_debts_as_paid
      rw [if_pos hids0]
    rw [hres]
    refine ⟨by simp, rfl, ?_, ?_⟩
    · intro j r hget
      have hidsnil := List.isEmpty_iff.1 hids0
      constructor
      · rintro ⟨hidmem, -⟩
        rw [hidsnil] at hidmem
        exact absurd hidmem (List.not_mem_nil r.id)
      · intro _
        exact hget
    · intro a ha
      rw [List.drop_length] at ha
      exact absurd ha (List.not_mem_nil a)
  · by_cases hitems0 : led.items.isEmpty
    · have hres : mark_debts_as_paid now user ids led = (led, []) := by
        unfold mark_debts_as_paid
        rw [if_neg hids0, if_pos hitems0]
      rw [hres]
      refine ⟨by simp, rfl, ?_, ?_⟩
      · intro j r hget
        have hnil := List.isEmpty_iff.1 hitems0
        rw [hnil] at hget
        simp at hget
      · intro a ha
        rw [List.drop_length] at ha
        exact absurd ha (List.not_mem_nil a)
    · have hres : mark_debts_as_paid now user ids led =
          ({ items := applyUpdatesAt led.items
              ((findTargets (fun r => r.id) (fun r => r.debtor == user)
                led.items ids).map (fun p => p.1)) (setPaid now user)
             archive := led.archive ++
              (findTargets (fun r => r.id) (fun r => r.debtor == user)
                led.items ids).map (fun p => archiveOf now user p.2) },
           (findTargets (fun r => r.id) (fun r => r.debtor == user)
              led.items ids).map (fun p =>
             { kind := "payment_marked"
               actor := user
               recipients := [p.2.uploader]
               description := p.2.description
               amount := p.2.amount_owed })) := by
        unfold mark_debts_as_paid
        rw [if_neg hids0, if_neg hitems0]
      rw [hres]
      have htgnodup := findTargets_nodup (fun r : DebtItem => r.id)
        (fun r => r.debtor == user) led.items hnd
      have hfstnodup := findTargets_fst_nodup (fun r : DebtItem => r.id)
        (fun r => r.debtor == user) led.items hnd
      refine ⟨?_, ?_, ?_, ?_⟩
      · dsimp only
        exact List.take_left _ _
      · dsimp only
        exact applyUpdatesAt_length _ _ _
      · intro j r hget
        dsimp only
        constructor
        · rintro ⟨hidmem, hdeb⟩
          have hmem : (j, r) ∈ findTargets (fun r : DebtItem => r.id)
              (fun r => r.debtor == user) led.items ids :=
            findTargets_complete _ _ ids hids hget hidmem (beq_iff_eq.2 hdeb)
          constructor
          · rw [applyUpdatesAt_getElem? _ hfstnodup _ j,
              if_pos (List.mem_map.2 ⟨(j, r), hmem, rfl⟩), hget]
            rfl
          · rw [List.drop_left]
            have hmem2 : archiveOf now user r ∈
                (findTargets (fun r : DebtItem => r.id)
                  (fun r => r.debtor == user) led.items ids).map
                  (fun p => archiveOf now user p.2) :=
              List.mem_map.2 ⟨(j, r), hmem, rfl⟩
            have hmnodup : ((findTargets (fun r : DebtItem => r.id)
                (fun r => r.debtor == user) led.items ids).map
                (fun p => archiveOf now user p.2)).Nodup := by
              refine List.Nodup.map_on ?_ htgnodup
              intro x hx y hy hxy
              have hidxy : x.2.id = y.2.id :=
                congrArg (fun a : ArchiveItem => a.base.id) hxy
              exact findTargets_eq_of_id _ _ led.items ids hx hy hidxy
            exact List.count_eq_one_of_mem hmnodup hmem2
        · intro hnot
          rw [applyUpdatesAt_getElem? _ hfstnodup _ j, if_neg ?_]
          · exact hget
          · intro hj
            obtain ⟨p, hp, hpj⟩ := List.mem_map.1 hj
            obtain ⟨hg, hidm, hok⟩ := findTargets_sound
              (fun r : DebtItem => r.id) (fun r => r.debtor == user)
              led.items ids hp
            rw [hpj] at hg
            rw [hget] at hg
            have hpr : p.2 = r := by
              injection hg with h
              exact h.symm
            rw [hpr] at hidm hok
            exact hnot ⟨hidm, beq_iff_eq.1 hok⟩
      · intro a ha
        dsimp only at ha
        rw [List.drop_left] at ha
        obtain ⟨p, hp, rfl⟩ := List.mem_map.1 ha
        obtain ⟨hg, hidm, hok⟩ := findTargets_sound
          (fun r : DebtItem => r.id) (fun r => r.debtor == user)
          led.items ids hp
        exact ⟨p.2, List.getElem?_mem hg, hidm, beq_iff_eq.1 hok, rfl⟩

theorem claim3_witness :
    (mark_debts_as_paid "T2" "alice" ["d1", "dx"] ledA).1.archive.take
      ledA.archive.length = ledA.archive :=
  (claim3_mark_paid_spec ledA "T2" "alice" ["d1", "dx"] (by decide)
    (by decide)).1

/-- C4: neither markPaid nor approvePayments checks whether the record is
already in its target state.  Marking the same (already paid) debt a
second time appends a second archive copy and emits a second notification;
approving the same archive row a second time re-stamps the approval
fields (`approved_at` becomes the second timestamp) and emits a second
notification.  This contradicts the claim that ids already in their
target state are skipped as no-ops. -/
theorem claim4_settlement_not_state_guarded :
    (mark_debts_as_paid "T2" "alice" ["d1"]
      (mark_debts_as_paid "T1" "alice" ["d1"] ledP).1).1.archive.length = 2 ∧
    (mark_debts_as_paid "T2" "alice" ["d1"]
      (mark_debts_as_paid "T1" "alice" ["d1"] ledP).1).2.length = 1 ∧
    (approve_payments "T4" "bob" ["d1"]
      (approve_payments "T3" "bob" ["d1"] ledQ).1).2.length = 1 ∧
    (approve_payments "T4" "bob" ["d1"]
      (approve_payments "T3" "bob" ["d1"] ledQ).1).1.archive =
      [setApproved "T4" "bob" (setApproved "T3" "bob" arcP)] := by
  decide

end HM
